import Mathlib

/-!
Verification of the EPUB assembly core of the pdf2epub repository
(`src/modules/mark2epub.py`), via a shallow embedding into Lean.

Strings are modelled as `List Char` (`Str`); Python's text operations
(`str.split`, `str.strip`, `str.replace`, `str.endswith`, string joins,
`"{:05d}".format`, substring tests with `in`) are given executable
counterparts.  Stateful parts (the project directory, the wall clock,
the produced ZIP archive) are modelled as explicit data:

* the project directory is a `ProjectState` (markdown files, the
  `images/` and `css/` subdirectories, the optional persisted
  `description.json` document);
* the wall clock is a `Clock` carrying the two formatted strings the
  code derives from `datetime.now()` plus the DOS timestamp `zipfile`
  stamps on each archive member;
* the archive produced by the `zipfile.ZipFile` block of `main` is a
  `List Member`, one entry per `writestr` call, in call order, where
  `Member.mtime` records the per-member last-modification timestamp
  that `ZipFile.writestr` derives from the current local time when it
  is handed a plain string name, and `Member.deflate` records the
  `compress_type` argument (`ZIP_STORED` = false, `ZIP_DEFLATED` = true).

Two library collaborators are abstracted as function parameters, since
the claims do not depend on their internals and the source treats them
as opaque: `mdToHtml` stands for `markdown.markdown(..., extensions=...)`
and `serializeOpf` stands for `minidom`'s `toprettyxml` applied to the
DOM tree built by `get_packageOPF_XML` (the tree itself is modelled
structurally as `OpfDoc`).  Interactive prompts are modelled as the
user accepting every default (`get_user_input` returns its default) and
the review loop as a pass-through, following the spec's own modelling
note for non-interactive contexts.
-/

namespace Pdf2Epub

/-- Strings as lists of characters. -/
abbrev Str := List Char

/-- Character data of a Lean string literal. -/
def sd (s : String) : Str := s.data

/-! ## Python string primitives -/

/-- Python `s.split(c)` for a single-character separator: the list of
(possibly empty) chunks between occurrences of `c`; never empty. -/
def splitOnChar (c : Char) : Str → List Str
  | [] => [[]]
  | x :: xs =>
    match splitOnChar c xs with
    | [] => [[]]
    | y :: ys => if x = c then [] :: y :: ys else (x :: y) :: ys

/-- Python join of `parts` with separator `sep`. -/
def joinSep (sep : Str) : List Str → Str
  | [] => []
  | [p] => p
  | p :: ps => p ++ sep ++ joinSep sep ps

/-- Python whitespace characters stripped by `str.strip()` (the ASCII
subset; the modelled inputs contain no further Unicode whitespace). -/
def isPyWs (c : Char) : Bool := c ∈ [' ', '\t', '\n', '\r', '\x0b', '\x0c']

/-- Python `s.strip()`: drop whitespace from both ends. -/
def pyStrip (s : Str) : Str :=
  ((s.dropWhile isPyWs).reverse.dropWhile isPyWs).reverse

/-- Does `p` occur at the start of `s`?  (Python `s.startswith(p)`.) -/
def strStarts (p s : Str) : Bool :=
  match p, s with
  | [], _ => true
  | _ :: _, [] => false
  | a :: p', b :: s' => a = b && strStarts p' s'

/-- Does `p` occur at the end of `s`?  (Python `s.endswith(p)`.) -/
def strEnds (p s : Str) : Bool := strStarts p.reverse s.reverse

/-- Does `p` occur anywhere inside `s`?  (Python `p in s`.) -/
def isSubstr (p : Str) : Str → Bool
  | [] => strStarts p []
  | s@(_ :: rest) => strStarts p s || isSubstr p rest

/-- One step of Python `s.replace(old, new)` with fuel; replaces
non-overlapping occurrences left to right (`old` nonempty in all uses). -/
def replaceAllF (old new : Str) : Nat → Str → Str
  | _, [] => []
  | 0, s => s
  | fuel + 1, c :: rest =>
    if strStarts old (c :: rest) && !old.isEmpty then
      new ++ replaceAllF old new fuel (List.drop old.length (c :: rest))
    else
      c :: replaceAllF old new fuel rest

/-- Python `s.replace(old, new)`. -/
def pyReplaceAll (old new s : Str) : Str := replaceAllF old new s.length s

/-- Decimal digits of a natural number (Python `"{}".format(i)`). -/
def natStr (i : Nat) : Str := Nat.toDigits 10 i

/-- Python `"{:05d}".format(i)`: decimal digits left-padded with `'0'`
to at least five characters. -/
def pad5 (i : Nat) : Str :=
  List.replicate (5 - (natStr i).length) '0' ++ natStr i

/-- Python `md_filename.split(".")[0]`: the text before the first dot
(the whole name when there is no dot). -/
def base (md : Str) : Str := (splitOnChar '.' md).headD []

/-- Last chunk of `s.split(".")` (Python `s.split(".")[-1]`). -/
def lastDotChunk (s : Str) : Str := (splitOnChar '.' s).getLastD []

/-- Association-list lookup with default (Python `dict.get(k, d)` over
an ordered mapping). -/
def lookupD (l : List (Str × Str)) (k d : Str) : Str :=
  match l with
  | [] => d
  | (k', v) :: r => if k' = k then v else lookupD r k d

/-- Association-list lookup (Python `dict[k]` presence test). -/
def lookupA (l : List (Str × Str)) (k : Str) : Option Str :=
  match l with
  | [] => none
  | (k', v) :: r => if k' = k then some v else lookupA r k

/-- Python `list(dict.fromkeys(l))`: duplicates removed, first
occurrence order kept. -/
def dedupFirst (seen : List Str) : List Str → List Str
  | [] => []
  | x :: xs => if x ∈ seen then dedupFirst seen xs else x :: dedupFirst (x :: seen) xs

/-- Lexicographic comparison of strings by code point (Python `<`). -/
def strLt : Str → Str → Bool
  | [], [] => false
  | [], _ :: _ => true
  | _ :: _, [] => false
  | a :: s, b :: t => if a = b then strLt s t else a < b

/-- Insertion into a sorted list for `sortStrs`. -/
def insertSorted (x : Str) : List Str → List Str
  | [] => [x]
  | y :: ys => if strLt x y then x :: y :: ys else y :: insertSorted x ys

/-- Python `sorted(l)` on strings (insertion sort; stable). -/
def sortStrs : List Str → List Str
  | [] => []
  | x :: xs => insertSorted x (sortStrs xs)

/-- Python `enumerate(l)` starting at index `k`. -/
def enumF (k : Nat) : List α → List (Nat × α)
  | [] => []
  | x :: xs => (k, x) :: enumF (k + 1) xs

/-- Filename component of a POSIX path (`pathlib.Path(p).name`): the
last slash-separated component, with empty and `"."` components
discarded during parsing. -/
def pathName (p : Str) : Str :=
  ((splitOnChar '/' p).filter (fun c => !c.isEmpty && c ≠ ['.'])).getLastD []

/-! ## Directory listing (`get_all_filenames`, mark2epub.py lines 124-129) -/

/-- Model of `get_all_filenames(the_dir, extensions)`: empty when the
directory does not exist, else the directory listing filtered by
`x.split(".")[-1] in extensions`. -/
def get_all_filenames (dirExists : Bool) (listing : List Str) (extensions : List Str) : List Str :=
  if !dirExists then []
  else listing.filter (fun x => decide (lastDotChunk x ∈ extensions))

/-! ## Package document (`get_packageOPF_XML`, lines 131-237)

The function builds a `minidom` tree and pretty-prints it; the tree is
modelled structurally, the pretty-printer as an abstract serializer
parameter where the textual form is needed. -/

/-- One `<item>` element of the OPF manifest; `mediaType` and
`properties` are `none` when the corresponding `setAttribute` call is
not executed. -/
structure OpfItem where
  id : Str
  href : Str
  mediaType : Option Str
  properties : Option Str
deriving DecidableEq

/-- One child of the OPF `<metadata>` element: either a Dublin-Core
element `<k id=...>text</k>` (`id` absent when no label matches) or a
`<meta name=... content=.../>` element. -/
inductive MetaEntry where
  | dc (key : Str) (idAttr : Option Str) (text : Str)
  | meta (nameAttr : Str) (content : Str)
deriving DecidableEq

/-- The DOM tree built by `get_packageOPF_XML`: the `package` element's
`unique-identifier` attribute, the metadata children in append order,
the manifest items in append order, the spine (`toc` attribute and the
`(idref, linear)` itemrefs), and the guide references. -/
structure OpfDoc where
  uniqueIdentifier : Str
  metadata : List MetaEntry
  manifest : List OpfItem
  spineToc : Str
  spine : List (Str × Str)
  guide : List (Str × Str × Str)
deriving DecidableEq

/-- One chapter record of the description document. -/
structure ChapterRec where
  markdown : Str
  css : Str
deriving DecidableEq

/-- The description document (`description.json`): ordered metadata
mapping, CSS list, chapter records, optional cover image. -/
structure DescriptionData where
  metadata : List (Str × Str)
  default_css : List Str
  chapters : List ChapterRec
  cover_image : Option Str
deriving DecidableEq

/-- The `id` label attached to a Dublin-Core metadata element (lines
147-149): `dc:title` → `title`, `dc:creator` → `creator`,
`dc:identifier` → `book-id`, nothing otherwise. -/
def dcIdLabel (k : Str) : Option Str :=
  if k = sd "dc:title" then some (sd "title")
  else if k = sd "dc:creator" then some (sd "creator")
  else if k = sd "dc:identifier" then some (sd "book-id")
  else none

/-- Chapter manifest item id, `"s{:05d}".format(i)` (line 179). -/
def manifestChapterId (i : Nat) : Str := sd "s" ++ pad5 i

/-- Chapter manifest item href,
`"s{:05d}-{}.xhtml".format(i, md_filename.split(".")[0])` (line 180). -/
def manifestChapterHref (i : Nat) (md : Str) : Str :=
  sd "s" ++ pad5 i ++ sd "-" ++ base md ++ sd ".xhtml"

/-- Spine itemref idref, `"s{:05d}".format(i)` (line 220). -/
def spineChapterIdref (i : Nat) : Str := sd "s" ++ pad5 i

/-- Media type attribute of an image manifest item (lines 188-193):
substring tests `"gif" in f`, `"jpg" in f or "jpeg" in f`,
`"png" in f`, in that order; no attribute when none matches. -/
def imageMediaType (f : Str) : Option Str :=
  if isSubstr (sd "gif") f then some (sd "image/gif")
  else if isSubstr (sd "jpg") f || isSubstr (sd "jpeg") f then some (sd "image/jpeg")
  else if isSubstr (sd "png") f then some (sd "image/png")
  else none

/-- Image manifest item (lines 184-201): the `properties="cover-image"`
attribute is set exactly when the filename equals the description's
cover image. -/
def imageItem (cover : Option Str) (i : Nat) (f : Str) : OpfItem :=
  { id := sd "image-" ++ pad5 i
    href := sd "images/" ++ f
    mediaType := imageMediaType f
    properties := if some f = cover then some (sd "cover-image") else none }

/-- The `<meta name="cover" .../>` element appended to the metadata
block when an image equals the cover image (lines 196-200). -/
def coverMetaFor (cover : Option Str) (i : Nat) (f : Str) : List MetaEntry :=
  if some f = cover then [.meta (sd "cover") (sd "image-" ++ pad5 i)] else []

/-- Model of `get_packageOPF_XML(md_filenames, image_filenames,
css_filenames, description_data)` as the DOM tree it constructs. -/
def get_packageOPF_XML (md_filenames image_filenames css_filenames : List Str)
    (description_data : DescriptionData) : OpfDoc :=
  { uniqueIdentifier := sd "pub-id"
    metadata :=
      (description_data.metadata.filter (fun kv => !kv.2.isEmpty)).map
        (fun kv => .dc kv.1 (dcIdLabel kv.1) kv.2)
      ++ ((enumF 0 image_filenames).map
            (fun p => coverMetaFor description_data.cover_image p.1 p.2)).flatten
    manifest :=
      [ { id := sd "toc", href := sd "TOC.xhtml",
          mediaType := some (sd "application/xhtml+xml"), properties := some (sd "nav") },
        { id := sd "ncx", href := sd "toc.ncx",
          mediaType := some (sd "application/x-dtbncx+xml"), properties := none },
        { id := sd "titlepage", href := sd "titlepage.xhtml",
          mediaType := some (sd "application/xhtml+xml"), properties := none } ]
      ++ (enumF 0 md_filenames).map (fun p =>
           { id := manifestChapterId p.1, href := manifestChapterHref p.1 p.2,
             mediaType := some (sd "application/xhtml+xml"), properties := none })
      ++ (enumF 0 image_filenames).map (fun p => imageItem description_data.cover_image p.1 p.2)
      ++ (enumF 0 css_filenames).map (fun p =>
           { id := sd "css-" ++ pad5 p.1, href := sd "css/" ++ p.2,
             mediaType := some (sd "text/css"), properties := none })
    spineToc := sd "ncx"
    spine := (sd "titlepage", sd "yes")
      :: (enumF 0 md_filenames).map (fun p => (spineChapterIdref p.1, sd "yes"))
    guide := [(sd "cover", sd "Cover image", sd "titlepage.xhtml")] }

/-! ## Container descriptor (`get_container_XML`, lines 239-245) -/

/-- The constant `META-INF/container.xml` text. -/
def get_container_XML : Str :=
  sd "<?xml version=\"1.0\" encoding=\"UTF-8\" ?>\n<container version=\"1.0\" xmlns=\"urn:oasis:names:tc:opendocument:xmlns:container\">\n<rootfiles>\n<rootfile full-path=\"OPS/package.opf\" media-type=\"application/oebps-package+xml\"/>\n</rootfiles>\n</container>"

/-! ## Title page (`get_coverpage_XML`, lines 247-288) -/

/-- The title-page template, with the title and authors strings
interpolated (literal braces of the embedded CSS written as escapes). -/
def get_coverpage_XML (title authors : Str) : Str :=
  sd "<?xml version=\"1.0\" encoding=\"utf-8\"?>\n<html xmlns=\"http://www.w3.org/1999/xhtml\" xml:lang=\"en\">\n<head>\n<title>Cover Page</title>\n<style type=\"text/css\">\nbody \x7b \n    margin: 0;\n    padding: 0;\n    height: 100vh;\n    display: flex;\n    justify-content: center;\n    align-items: center;\n    font-family: serif;\n\x7d\n.cover \x7b\n    padding: 3em;\n    text-align: center;\n    border: 1px solid #ccc;\n    max-width: 80%;\n\x7d\nh1 \x7b\n    font-size: 2em;\n    margin-bottom: 1em;\n    line-height: 1.2;\n    color: #333;\n\x7d\np \x7b\n    font-size: 1.2em;\n    font-style: italic;\n    color: #666;\n    line-height: 1.4;\n\x7d\n</style>\n</head>\n<body>\n    <div class=\"cover\">\n        <h1>"
  ++ title
  ++ sd "</h1>\n        <p>"
  ++ authors
  ++ sd "</p>\n    </div>\n</body>\n</html>"

/-! ## Navigation document (`get_TOC_XML`, lines 290-310) -/

/-- CSS link line of the TOC header (line 298). -/
def tocCssLink (css : Str) : Str :=
  sd "<link rel=\"stylesheet\" href=\"css/" ++ css ++ sd "\" type=\"text/css\"/>\n"

/-- Anchor href of a TOC chapter entry,
`s{i:05d}-{md_filename.split(".")[0]}.xhtml` (line 305). -/
def tocHrefStr (i : Nat) (md : Str) : Str :=
  sd "s" ++ pad5 i ++ sd "-" ++ base md ++ sd ".xhtml"

/-- One `<li>` entry of the TOC list (line 305). -/
def tocChapterLi (i : Nat) (md : Str) : Str :=
  sd "<li><a href=\"" ++ tocHrefStr i md ++ sd "\">" ++ base md ++ sd "</a></li>"

/-- Model of `get_TOC_XML(default_css_filenames, markdown_filenames)`. -/
def get_TOC_XML (default_css_filenames markdown_filenames : List Str) : Str :=
  sd "<?xml version=\"1.0\" encoding=\"UTF-8\"?>\n<html xmlns=\"http://www.w3.org/1999/xhtml\" xmlns:epub=\"http://www.idpf.org/2007/ops\" lang=\"en\">\n<head>\n<meta http-equiv=\"default-style\" content=\"text/html; charset=utf-8\"/>\n<title>Contents</title>\n"
  ++ (default_css_filenames.map tocCssLink).flatten
  ++ sd "</head>\n<body>\n<nav epub:type=\"toc\" role=\"doc-toc\" id=\"toc\">\n<h2>Contents</h2>\n<ol epub:type=\"list\">"
  ++ ((enumF 0 markdown_filenames).map (fun p => tocChapterLi p.1 p.2)).flatten
  ++ sd "</ol>\n</nav>\n</body>\n</html>"

/-! ## Legacy navigation (`get_TOCNCX_XML`, lines 312-327) -/

/-- Content src of an NCX navPoint,
`s{i:05d}-{md_filename.split(".")[0]}.xhtml` (line 323). -/
def ncxSrcStr (i : Nat) (md : Str) : Str :=
  sd "s" ++ pad5 i ++ sd "-" ++ base md ++ sd ".xhtml"

/-- One `navPoint` element of the NCX navMap (lines 320-324); the
navPoint id interpolates the bare index `i`, not the padded form. -/
def ncxNavPoint (i : Nat) (md : Str) : Str :=
  sd "<navPoint id=\"navpoint-" ++ natStr i ++ sd "\">\n<navLabel>\n<text>"
  ++ base md
  ++ sd "</text>\n</navLabel><content src=\"" ++ ncxSrcStr i md ++ sd "\"/>\n</navPoint>"

/-- Model of `get_TOCNCX_XML(markdown_filenames)`. -/
def get_TOCNCX_XML (markdown_filenames : List Str) : Str :=
  sd "<?xml version=\"1.0\" encoding=\"UTF-8\"?>\n<ncx xmlns=\"http://www.daisy.org/z3986/2005/ncx/\" xml:lang=\"fr\" version=\"2005-1\">\n<head>\n</head>\n<navMap>\n"
  ++ ((enumF 0 markdown_filenames).map (fun p => ncxNavPoint p.1 p.2)).flatten
  ++ sd "</navMap>\n</ncx>"

/-! ## Image references (`process_markdown_for_images`, lines 76-97)

The scan uses `re.finditer` with the pattern `!\[(.*?)\]\((.*?)\)`:
lazy groups, `.` not matching a newline, leftmost non-overlapping
matches.  The model implements exactly this matcher: the alt group is
the text up to the first `](` after `![` (failing if a newline comes
first), the path group the text up to the first `)` after that
(likewise), and scanning resumes after each match. -/

/-- Scan for the lazy alt group: text up to the first `](`; fails on a
newline or end of input before `](`. -/
def scanAlt : Str → Option (Str × Str)
  | [] => none
  | ']' :: '(' :: r => some ([], r)
  | '\n' :: _ => none
  | c :: r =>
    match scanAlt r with
    | some (a, r2) => some (c :: a, r2)
    | none => none

/-- Scan for the lazy path group: text up to the first `)`; fails on a
newline or end of input before `)`. -/
def scanPath : Str → Option (Str × Str)
  | [] => none
  | ')' :: r => some ([], r)
  | '\n' :: _ => none
  | c :: r =>
    match scanPath r with
    | some (a, r2) => some (c :: a, r2)
    | none => none

/-- Regex match attempt at the start of the text: on success returns
`(group0, alt, path, rest)`. -/
def matchAt : Str → Option (Str × Str × Str × Str)
  | '!' :: '[' :: rest =>
    match scanAlt rest with
    | none => none
    | some (alt, r1) =>
      match scanPath r1 with
      | none => none
      | some (path, r2) =>
        some ('!' :: '[' :: (alt ++ ']' :: '(' :: (path ++ [')'])), alt, path, r2)
  | _ => none

/-- Leftmost non-overlapping matches with the gap of unmatched text
before each match and the trailing gap: `re.finditer` over the text.
The fuel argument is the remaining text length (each step consumes at
least one character). -/
def findMatchesGF : Nat → Str → List (Str × Str × Str × Str) × Str
  | 0, s => ([], s)
  | _ + 1, [] => ([], [])
  | fuel + 1, c :: rest =>
    match matchAt (c :: rest) with
    | some (g0, alt, path, r) =>
      let (ms, lastGap) := findMatchesGF fuel r
      (([], g0, alt, path) :: ms, lastGap)
    | none =>
      let (ms, lastGap) := findMatchesGF fuel rest
      match ms with
      | [] => ([], c :: lastGap)
      | (gap, g0, a, p) :: ms' => ((c :: gap, g0, a, p) :: ms', lastGap)

/-- Match decomposition of a text: `(gapBefore, group0, alt, path)` per
match, plus the trailing gap. -/
def findMatchesG (s : Str) : List (Str × Str × Str × Str) × Str :=
  findMatchesGF s.length s

/-- The `(group0, alt, path)` triples of `re.finditer`, in order. -/
def findMatches (s : Str) : List (Str × Str × Str) :=
  (findMatchesG s).1.map (fun m => (m.2.1, m.2.2.1, m.2.2.2))

/-- One iteration of the match loop (lines 82-95): strip the path,
take its filename component, and when that file exists in the `images`
directory, record it and replace every occurrence of the matched text
by the normalized reference; otherwise leave the accumulator unchanged
(a warning is printed).  `fileExists nm` models
`(work_dir / 'images' / nm).exists()` for a filename `nm`. -/
def processStep (fileExists : Str → Bool) (acc : Str × List Str) (m : Str × Str × Str) :
    Str × List Str :=
  let (g0, alt, path) := m
  let image_path := pyStrip path
  let nm := pathName image_path
  if fileExists nm then
    (pyReplaceAll g0 (sd "![" ++ alt ++ sd "](images/" ++ nm ++ sd ")") acc.1,
     acc.2 ++ [nm])
  else acc

/-- Model of `process_markdown_for_images(markdown_text, work_dir)`:
returns `(modified_text, images_found)`. -/
def process_markdown_for_images (fileExists : Str → Bool) (markdown_text : Str) :
    Str × List Str :=
  (findMatches markdown_text).foldl (processStep fileExists) (markdown_text, [])

/-! ## Chapter rendering (`get_chapter_XML`, lines 329-371) -/

/-- The preprocessing of lines 344-345:
`"\n\n".join(markdown_data.strip().split('\n'))`. -/
def corrected_markdown (markdown_data : Str) : Str :=
  joinSep (sd "\n\n") (splitOnChar '\n' (pyStrip markdown_data))

/-- CSS link element of the chapter head (line 364). -/
def chapterCssLink (css : Str) : Str :=
  sd "<link rel=\"stylesheet\" href=\"css/" ++ css ++ sd "\" type=\"text/css\" media=\"all\"/>"

/-- The XHTML document shell wrapped around the converted chapter body
(lines 359-369). -/
def chapterShell (titleBase : Str) (css_filenames : List Str) (html_text : Str) : Str :=
  sd "<?xml version=\"1.0\" encoding=\"UTF-8\"?>\n<html xmlns=\"http://www.w3.org/1999/xhtml\" xmlns:epub=\"http://www.idpf.org/2007/ops\" lang=\"en\">\n<head>\n    <meta http-equiv=\"default-style\" content=\"text/html; charset=utf-8\"/>\n    <title>"
  ++ titleBase
  ++ sd "</title>\n    "
  ++ (css_filenames.map chapterCssLink).flatten
  ++ sd "\n</head>\n<body>\n"
  ++ html_text
  ++ sd "\n</body>\n</html>"

/-- Model of `get_chapter_XML(work_dir, md_filename, css_filenames,
content)` with the chapter text already read: preprocess, rewrite image
references, convert with the abstract `markdown.markdown` collaborator
`mdToHtml`, and wrap in the shell.  Returns `(xhtml, chapter_images)`. -/
def get_chapter_XML (mdToHtml : Str → Str) (fileExists : Str → Bool)
    (md_filename : Str) (css_filenames : List Str) (content : Str) : Str × List Str :=
  let pr := process_markdown_for_images fileExists (corrected_markdown content)
  (chapterShell (base md_filename) css_filenames (mdToHtml pr.1), pr.2)

/-! ## Metadata store (`get_metadata_from_user`, lines 19-48)

Interactive collection modelled with the user accepting every default
(`get_user_input(prompt, default)` returns `default`).  The wall clock
enters through the identifier and date defaults. -/

/-- The formatted wall-clock values the build consumes: `stamp` is
`datetime.now().strftime("%Y%m%d%H%M%S")`, `date` is
`datetime.now().strftime("%Y-%m-%d")`, and `zipTime` is the DOS
date-time that `zipfile.ZipInfo` derives from `time.localtime()` and
stamps on every member written with a plain string name. -/
structure Clock where
  stamp : Str
  date : Str
  zipTime : Nat
deriving DecidableEq

/-- The seven metadata fields of lines 28-36, merged with Enter-through
prompts: each key takes the stored value when present, else the named
default (the identifier and date defaults are clock-derived). -/
def mergeFields (c : Clock) (m : List (Str × Str)) : List (Str × Str) :=
  [ (sd "dc:title", lookupD m (sd "dc:title") (sd "Untitled Document")),
    (sd "dc:creator", lookupD m (sd "dc:creator") (sd "Unknown Author")),
    (sd "dc:identifier", lookupD m (sd "dc:identifier") (sd "id-" ++ c.stamp)),
    (sd "dc:language", lookupD m (sd "dc:language") (sd "en")),
    (sd "dc:rights", lookupD m (sd "dc:rights") (sd "All rights reserved")),
    (sd "dc:publisher", lookupD m (sd "dc:publisher") (sd "PDF2EPUB")),
    (sd "dc:date", lookupD m (sd "dc:date") c.date) ]

/-- Model of `get_metadata_from_user(existing_metadata)` with every
prompt answered by Enter. -/
def get_metadata_from_user (c : Clock) (existing : DescriptionData) : DescriptionData :=
  { metadata := mergeFields c existing.metadata
    default_css := existing.default_css
    chapters := existing.chapters
    cover_image := existing.cover_image }

/-! ## The build (`main`, lines 384-531, and `convert_to_epub`,
lines 373-382) -/

/-- The project directory: the files directly in `work_dir` (the
markdown chapters among them), the `images/` subdirectory (existence
flag and files), the `css/` subdirectory files, and the optional
persisted description document. -/
structure ProjectState where
  workFiles : List (Str × Str)
  imagesDirExists : Bool
  imageFiles : List (Str × Str)
  cssFiles : List (Str × Str)
  description : Option DescriptionData
deriving DecidableEq

/-- The stylesheet text written to `css/stylesheet.css` on first run
(lines 397-412; literal braces written as escapes). -/
def indent_css : Str :=
  sd "\np \x7b\n  text-indent: 1.5em;\n  margin-top: 0;\n  margin-bottom: 0;\n\x7d\n\n/* For starting chapters/sections on a new page */\nh1, h2, h3, h4 \x7b\n  page-break-before: always;\n  text-align: center;\n  margin-top: 3em;\n  margin-bottom: 1.5em;\n  line-height: 1.2;\n\x7d\n"

/-- Step 1 of `main` (lines 393-416): create `css/` and write the
default stylesheet unless it already exists. -/
def cssFilesAfterInit (P : ProjectState) : List (Str × Str) :=
  if (lookupA P.cssFiles (sd "stylesheet.css")).isNone
  then P.cssFiles ++ [(sd "stylesheet.css", indent_css)]
  else P.cssFiles

/-- Filenames in the work directory ending in `.md` (line 438 and the
`glob('*.md')` of `convert_to_epub`). -/
def mdNamesOf (P : ProjectState) : List Str :=
  (P.workFiles.map Prod.fst).filter (fun f => strEnds (sd ".md") f)

/-- Steps 2-4 of `main` (lines 422-440): load the stored description
(empty default), merge metadata with Enter-through prompts, ensure
`stylesheet.css` is in `default_css`, and seed `chapters` from the
sorted markdown listing when empty.  The result is what line 442
persists back to `description.json`. -/
def mergedJson (c : Clock) (P : ProjectState) : DescriptionData :=
  let existing := P.description.getD ⟨[], [], [], none⟩
  let jd0 := get_metadata_from_user c existing
  let jd1 :=
    if sd "stylesheet.css" ∈ jd0.default_css then jd0
    else { jd0 with default_css := jd0.default_css ++ [sd "stylesheet.css"] }
  if jd1.chapters.isEmpty then
    { jd1 with chapters := (sortStrs (mdNamesOf P)).map (fun f => ⟨f, []⟩) }
  else jd1

/-- Reading every chapter file (lines 445-452, with the review loop a
pass-through): fails on the first chapter whose markdown file is
missing from the work directory files `wf`. -/
def readChapterContents (wf : List (Str × Str)) : List ChapterRec → Except Str (List (Str × Str))
  | [] => .ok []
  | ch :: rest =>
    match lookupA wf ch.markdown with
    | none => .error (sd "chapter file not found")
    | some content =>
      match readChapterContents wf rest with
      | .error e => .error e
      | .ok l => .ok ((ch.markdown, content) :: l)

/-- One member of the produced ZIP archive: name, byte content,
whether it was written with `ZIP_DEFLATED` (`false` = `ZIP_STORED`),
and the last-modification timestamp `zipfile` stamps from the clock. -/
structure Member where
  name : Str
  content : Str
  deflate : Bool
  mtime : Nat
deriving DecidableEq

/-- Chapter member name in the archive,
`f"OPS/s{i:05d}-{md_filename.split('.')[0]}.xhtml"` (line 495). -/
def zipChapterName (i : Nat) (md : Str) : Str :=
  sd "OPS/s" ++ pad5 i ++ sd "-" ++ base md ++ sd ".xhtml"

/-- The image-existence oracle of a project state: a filename is found
exactly when it is a file of the `images/` directory. -/
def imageExistsOf (P : ProjectState) (nm : Str) : Bool :=
  (lookupA P.imageFiles nm).isSome

/-- The standard extension filter of line 479. -/
def imageExts : List Str := [sd "gif", sd "jpg", sd "jpeg", sd "png"]

/-- The `zipfile.ZipFile` block of `main` (lines 474-523): the members
written, in call order.  `P1` is the project state after the stylesheet
write, `jd` the merged description, `contents` the chapter texts. -/
def buildMembers (mdToHtml : Str → Str) (serializeOpf : OpfDoc → Str) (c : Clock)
    (P1 : ProjectState) (jd : DescriptionData) (contents : List (Str × Str)) : List Member :=
  let title := lookupD jd.metadata (sd "dc:title") (sd "Untitled Document")
  let authors := lookupD jd.metadata (sd "dc:creator") (sd "Unknown Author")
  let all_md_filenames := jd.chapters.map (fun ch => ch.markdown)
  let all_css_filenames := dedupFirst [] jd.default_css
  let all_available_images :=
    get_all_filenames P1.imagesDirExists (P1.imageFiles.map Prod.fst) imageExts
  [ { name := sd "mimetype", content := sd "application/epub+zip",
      deflate := false, mtime := c.zipTime },
    { name := sd "META-INF/container.xml", content := get_container_XML,
      deflate := true, mtime := c.zipTime },
    { name := sd "OPS/package.opf",
      content := serializeOpf
        (get_packageOPF_XML all_md_filenames all_available_images all_css_filenames jd),
      deflate := true, mtime := c.zipTime },
    { name := sd "OPS/titlepage.xhtml", content := get_coverpage_XML title authors,
      deflate := true, mtime := c.zipTime } ]
  ++ (enumF 0 all_md_filenames).map (fun p =>
       { name := zipChapterName p.1 p.2,
         content := (get_chapter_XML mdToHtml (imageExistsOf P1) p.2 jd.default_css
                       (lookupD contents p.2 [])).1,
         deflate := true, mtime := c.zipTime })
  ++ all_available_images.map (fun img =>
       { name := sd "OPS/images/" ++ img, content := lookupD P1.imageFiles img [],
         deflate := true, mtime := c.zipTime })
  ++ [ { name := sd "OPS/TOC.xhtml",
         content := get_TOC_XML all_css_filenames all_md_filenames,
         deflate := true, mtime := c.zipTime },
       { name := sd "OPS/toc.ncx", content := get_TOCNCX_XML all_md_filenames,
         deflate := true, mtime := c.zipTime } ]
  ++ (all_css_filenames.filter (fun css => (lookupA P1.cssFiles css).isSome)).map (fun css =>
       { name := sd "OPS/css/" ++ css, content := lookupD P1.cssFiles css [],
         deflate := true, mtime := c.zipTime })

/-- The project state after the stylesheet write (line 415) and the
description persistence (lines 442-443). -/
def persistState (c : Clock) (P : ProjectState) : ProjectState :=
  { P with cssFiles := cssFilesAfterInit P, description := some (mergedJson c P) }

/-- Model of `main([work_dir, output_path])`: stylesheet
initialization, metadata merge, description persistence, chapter
reading, and the archive block.  Returns the archive members and the
project state as left on disk. -/
def mainBuild (mdToHtml : Str → Str) (serializeOpf : OpfDoc → Str) (c : Clock)
    (P : ProjectState) : Except Str (List Member × ProjectState) :=
  let jd := mergedJson c P
  let P1 := persistState c P
  match readChapterContents P1.workFiles jd.chapters with
  | .error e => .error e
  | .ok contents => .ok (buildMembers mdToHtml serializeOpf c P1 jd contents, P1)

/-- Model of `convert_to_epub(markdown_dir, output_dir)` (lines
373-382): raise before any archive work when the project directory is
missing or holds no `*.md` file; otherwise run `main`. -/
def convert_to_epub (mdToHtml : Str → Str) (serializeOpf : OpfDoc → Str) (c : Clock)
    (markdownDirExists : Bool) (P : ProjectState) : Except Str (List Member × ProjectState) :=
  if !markdownDirExists then .error (sd "Markdown directory not found")
  else if (mdNamesOf P).isEmpty then .error (sd "No markdown files found")
  else mainBuild mdToHtml serializeOpf c P

/-! ## Claim-side definitions

These definitions follow the words of the spec and of the claims, for
comparison with the source-side definitions above. -/

/-- The canonical chapter content-document filename the spec's
numbering scheme prescribes for chapter `i`: `s{i:05d}-{basename}.xhtml`. -/
def chapterFileName (i : Nat) (md : Str) : Str :=
  sd "s" ++ pad5 i ++ sd "-" ++ base md ++ sd ".xhtml"

/-- Modelled from the spec (claim C3): media type inferred from the
filename's extension — `image/gif` for `.gif` files, `image/jpeg` for
`.jpg`/`.jpeg` files, `image/png` for `.png` files. -/
def extensionMediaType (f : Str) : Option Str :=
  if lastDotChunk f = sd "gif" then some (sd "image/gif")
  else if lastDotChunk f = sd "jpg" ∨ lastDotChunk f = sd "jpeg" then some (sd "image/jpeg")
  else if lastDotChunk f = sd "png" then some (sd "image/png")
  else none

/-- Modelled from the spec (claim C5): split the input into lines on
newline and rejoin with a blank line between every pair of lines, with
no other change. -/
def claimLineDoubling (s : Str) : Str := joinSep (sd "\n\n") (splitOnChar '\n' s)

/-- Modelled from the spec (claim C6): rewrite each matched image
reference in place — to `![alt](images/<filename>)` when the stripped
path's filename component names a present file, unchanged otherwise —
leaving all surrounding text untouched, and record the present
filenames in match order. -/
def claimProcessImages (fileExists : Str → Bool) (text : Str) : Str × List Str :=
  let d := findMatchesG text
  ((d.1.map (fun m =>
      let nm := pathName (pyStrip m.2.2.2)
      m.1 ++ (if fileExists nm then sd "![" ++ m.2.2.1 ++ sd "](images/" ++ nm ++ sd ")"
              else m.2.1))).flatten ++ d.2,
   (d.1.filter (fun m => fileExists (pathName (pyStrip m.2.2.2)))).map
     (fun m => pathName (pyStrip m.2.2.2)))

/-- Projection of a member to the data the spec's round-trip property
compares: everything except the clock-derived modification timestamp. -/
def memberData (m : Member) : Str × Str × Bool := (m.name, m.content, m.deflate)

/-- Timestamp-stripped view of a build result. -/
def archiveData (e : Except Str (List Member × ProjectState)) :
    Except Str (List (Str × Str × Bool)) :=
  e.map (fun r => r.1.map memberData)

/-- Timestamp-stripped view of the second of two sequential builds
(the second build starts from the directory state the first leaves). -/
def rebuildData (mdToHtml : Str → Str) (serializeOpf : OpfDoc → Str) (c1 c2 : Clock)
    (P : ProjectState) : Except Str (List (Str × Str × Bool)) :=
  match mainBuild mdToHtml serializeOpf c1 P with
  | .error e => .error e
  | .ok (_, P1) => (mainBuild mdToHtml serializeOpf c2 P1).map (fun r => r.1.map memberData)

/-- Modelled from claim C7's wording, at the level of the two member
lists: byte-identical archives, the only permitted difference sitting
in the identifier metadata, which lives only in `OPS/package.opf` —
so equal lengths, pairwise equal names, and pairwise equal members at
every name other than `OPS/package.opf`. -/
def identicalExceptOpf (A1 A2 : List Member) : Bool :=
  decide (A1.length = A2.length) &&
  (A1.zip A2).all (fun q =>
    decide (q.1.name = q.2.name) &&
    (decide (q.1.name = sd "OPS/package.opf") || decide (q.1 = q.2)))

/-- Claim C7 instantiated on a pair of sequential builds (vacuously
true when either build fails). -/
def claimC7At (mdToHtml : Str → Str) (serializeOpf : OpfDoc → Str) (c1 c2 : Clock)
    (P : ProjectState) : Bool :=
  match mainBuild mdToHtml serializeOpf c1 P with
  | .error _ => true
  | .ok (A1, P1) =>
    match mainBuild mdToHtml serializeOpf c2 P1 with
    | .error _ => true
    | .ok (A2, _) => identicalExceptOpf A1 A2

/-- Member names and compression flags of a build result. -/
def archivePlan (e : Except Str (List Member × ProjectState)) : Option (List (Str × Bool)) :=
  e.toOption.map (fun r => r.1.map (fun m => (m.name, m.deflate)))

/-- First member of a build result. -/
def archiveHead (e : Except Str (List Member × ProjectState)) : Option Member :=
  e.toOption.bind (fun r => r.1.head?)

/-! ## Concrete fixtures for witnesses and counterexamples -/

/-- A trivial stand-in for the abstract markdown-to-HTML collaborator. -/
def mdToHtml0 : Str → Str := fun s => s

/-- A trivial stand-in for the abstract OPF serializer. -/
def serializeOpf0 : OpfDoc → Str := fun _ => []

/-- A first build instant. -/
def clock1 : Clock := { stamp := sd "20260101120000", date := sd "2026-01-01", zipTime := 100 }

/-- A later build instant (ninety seconds on). -/
def clock2 : Clock := { stamp := sd "20260101120130", date := sd "2026-01-01", zipTime := 200 }

/-- A minimal project: one chapter, no images, no css, no description. -/
def proj0 : ProjectState :=
  { workFiles := [(sd "a.md", sd "hello")], imagesDirExists := false,
    imageFiles := [], cssFiles := [], description := none }

/-- A two-chapter project with one image. -/
def proj1 : ProjectState :=
  { workFiles := [(sd "b.md", sd "second"), (sd "a.md", sd "first")], imagesDirExists := true,
    imageFiles := [(sd "pic.png", sd "PNGDATA")], cssFiles := [], description := none }

/-- Oracle of an images directory holding exactly `p.png`. -/
def oracleP (nm : Str) : Bool := decide (nm = sd "p.png")

/-- Oracle of an images directory holding exactly `pic.png`. -/
def oraclePic (nm : Str) : Bool := decide (nm = sd "pic.png")

/-- Oracle of an empty images directory. -/
def oracleNone : Str → Bool := fun _ => false

/-- The C6 counterexample text: a present-filename reference whose
matched text also occurs inside an earlier absent-filename match. -/
def textC6 : Str := sd "![b](z![a](p.png) ![a](p.png)"

/-- An empty description document. -/
def descEmpty : DescriptionData := { metadata := [], default_css := [], chapters := [], cover_image := none }

/-- A description whose cover image is not among the available images. -/
def descC4 : DescriptionData :=
  { metadata := [], default_css := [], chapters := [], cover_image := some (sd "c.png") }

/-- A description with a non-empty identifier. -/
def descC8 : DescriptionData :=
  { metadata := [(sd "dc:identifier", sd "some-id")], default_css := [], chapters := [],
    cover_image := none }

/-- A description listing two chapters. -/
def descC1 : DescriptionData :=
  { metadata := [], default_css := [],
    chapters := [{ markdown := sd "a.md", css := [] }, { markdown := sd "b.md", css := [] }],
    cover_image := none }

set_option maxRecDepth 100000

/-! ## Helper lemmas -/

theorem getElem?_append_at (l₁ l₂ : List α) (k n : Nat) (h : l₁.length = k) :
    (l₁ ++ l₂)[k + n]? = l₂[n]? := by
  subst h
  rw [List.getElem?_append_right (Nat.le_add_right _ _)]
  simp

theorem enumF_length (k : Nat) (l : List α) : (enumF k l).length = l.length := by
  induction l generalizing k with
  | nil => rfl
  | cons x xs ih => simp [enumF, ih]

theorem enumF_getElem? (k i : Nat) (l : List α) :
    (enumF k l)[i]? = l[i]?.map (fun a => (k + i, a)) := by
  induction l generalizing k i with
  | nil => simp [enumF]
  | cons x xs ih =>
    cases i with
    | zero => simp [enumF]
    | succ n =>
      have harith : k + 1 + n = k + (n + 1) := by omega
      simp [enumF, ih (k + 1) n, harith]

theorem enumF_mem {k : Nat} {l : List α} {p : Nat × α} (h : p ∈ enumF k l) : p.2 ∈ l := by
  induction l generalizing k with
  | nil => cases h
  | cons x xs ih =>
    simp only [enumF, List.mem_cons] at h
    rcases h with h | h
    · subst h; exact List.mem_cons_self _ _
    · exact List.mem_cons_of_mem _ (ih h)

theorem zip_name_canonical (i : Nat) (md : Str) :
    zipChapterName i md = sd "OPS/" ++ chapterFileName i md := by
  simp only [zipChapterName, chapterFileName]
  rw [show (sd "OPS/s" : Str) = sd "OPS/" ++ sd "s" from by decide]
  simp [List.append_assoc]

theorem mergeFields_idem (c c' : Clock) (m : List (Str × Str)) :
    mergeFields c' (mergeFields c m) = mergeFields c m := rfl

theorem lookupA_append_self (l : List (Str × Str)) (k v : Str) :
    (lookupA (l ++ [(k, v)]) k).isSome = true := by
  induction l with
  | nil => simp [lookupA]
  | cons p r ih =>
    obtain ⟨k', v'⟩ := p
    simp only [List.cons_append, lookupA]
    split
    · rfl
    · exact ih

theorem cssFilesAfterInit_has_stylesheet (P : ProjectState) :
    (lookupA (cssFilesAfterInit P) (sd "stylesheet.css")).isSome = true := by
  unfold cssFilesAfterInit
  split
  · exact lookupA_append_self _ _ _
  · rename_i hcase
    cases hlk : lookupA P.cssFiles (sd "stylesheet.css") with
    | none => rw [hlk] at hcase; simp at hcase
    | some v => rfl

theorem cssFilesAfterInit_of_has (Q : ProjectState)
    (h : (lookupA Q.cssFiles (sd "stylesheet.css")).isSome = true) :
    cssFilesAfterInit Q = Q.cssFiles := by
  have hne : (lookupA Q.cssFiles (sd "stylesheet.css")).isNone = false := by
    cases hlk : lookupA Q.cssFiles (sd "stylesheet.css") with
    | none => rw [hlk] at h; simp at h
    | some v => rfl
  unfold cssFilesAfterInit
  rw [hne]
  simp

theorem cssFilesAfterInit_idem (c : Clock) (P : ProjectState) :
    cssFilesAfterInit (persistState c P) = (persistState c P).cssFiles :=
  cssFilesAfterInit_of_has _ (cssFilesAfterInit_has_stylesheet P)

theorem mergedJson_css_has_stylesheet (c : Clock) (P : ProjectState) :
    sd "stylesheet.css" ∈ (mergedJson c P).default_css := by
  simp only [mergedJson]
  by_cases hmem : sd "stylesheet.css"
      ∈ (get_metadata_from_user c (P.description.getD ⟨[], [], [], none⟩)).default_css
  · rw [if_pos hmem]
    split
    · exact hmem
    · exact hmem
  · rw [if_neg hmem]
    split
    · simp
    · simp

theorem mergedJson_chapters (c : Clock) (P : ProjectState) :
    (mergedJson c P).chapters =
      if (P.description.getD ⟨[], [], [], none⟩).chapters.isEmpty
      then (sortStrs (mdNamesOf P)).map (fun f => (⟨f, []⟩ : ChapterRec))
      else (P.description.getD ⟨[], [], [], none⟩).chapters := by
  simp only [mergedJson]
  split <;> split <;> simp_all [get_metadata_from_user]

theorem mergedJson_metadata (c : Clock) (P : ProjectState) :
    (mergedJson c P).metadata
      = mergeFields c (P.description.getD ⟨[], [], [], none⟩).metadata := by
  simp only [mergedJson]
  split <;> split <;> rfl

theorem mergedJson_idem (c c' : Clock) (P : ProjectState) :
    mergedJson c' (persistState c P) = mergedJson c P := by
  have hmerge : get_metadata_from_user c' (mergedJson c P) = mergedJson c P := by
    unfold get_metadata_from_user
    rw [mergedJson_metadata, mergeFields_idem, ← mergedJson_metadata]
  conv_lhs => simp only [mergedJson]
  rw [show (persistState c P).description.getD ⟨[], [], [], none⟩ = mergedJson c P from rfl]
  rw [hmerge]
  rw [if_pos (mergedJson_css_has_stylesheet c P)]
  by_cases hch : (mergedJson c P).chapters.isEmpty = true
  · rw [if_pos hch]
    have hempty : (mergedJson c P).chapters = [] := by
      rwa [List.isEmpty_iff] at hch
    have hseed : ((sortStrs (mdNamesOf P)).map (fun f => (⟨f, []⟩ : ChapterRec))) = [] := by
      rw [mergedJson_chapters] at hempty
      revert hempty
      split
      · exact fun hempty => hempty
      · rename_i hcase
        intro hempty
        rw [hempty] at hcase
        simp at hcase
    rw [show mdNamesOf (persistState c P) = mdNamesOf P from rfl, hseed, ← hempty]
  · rw [if_neg hch]

theorem persistState_idem (c c' : Clock) (P : ProjectState) :
    persistState c' (persistState c P) = persistState c P := by
  show ({ persistState c P with
            cssFiles := cssFilesAfterInit (persistState c P),
            description := some (mergedJson c' (persistState c P)) } : ProjectState)
       = persistState c P
  rw [cssFilesAfterInit_idem, mergedJson_idem]
  rfl

theorem buildMembers_data (f : Str → Str) (g : OpfDoc → Str) (c c' : Clock)
    (P1 : ProjectState) (jd : DescriptionData) (contents : List (Str × Str)) :
    (buildMembers f g c P1 jd contents).map memberData
      = (buildMembers f g c' P1 jd contents).map memberData := by
  simp [buildMembers, memberData, List.map_append, List.map_map, Function.comp_def]

theorem processStep_mem_preserved (ex : Str → Bool) (acc : Str × List Str)
    (m : Str × Str × Str) {x : Str} (hx : x ∈ acc.2) : x ∈ (processStep ex acc m).2 := by
  obtain ⟨g0, alt, path⟩ := m
  simp only [processStep]
  split
  · simpa using Or.inl hx
  · exact hx

theorem foldl_processStep_mem (ex : Str → Bool) (ms : List (Str × Str × Str))
    (acc : Str × List Str) {x : Str} (hx : x ∈ acc.2) :
    x ∈ (ms.foldl (processStep ex) acc).2 := by
  induction ms generalizing acc with
  | nil => exact hx
  | cons m ms ih => exact ih _ (processStep_mem_preserved ex acc m hx)

theorem foldl_processStep_rec (ex : Str → Bool) (ms : List (Str × Str × Str))
    (acc : Str × List Str) {m : Str × Str × Str} (hm : m ∈ ms)
    (hp : ex (pathName (pyStrip m.2.2)) = true) :
    pathName (pyStrip m.2.2) ∈ (ms.foldl (processStep ex) acc).2 := by
  induction ms generalizing acc with
  | nil => cases hm
  | cons hd tl ih =>
    rcases List.mem_cons.mp hm with rfl | htl
    · rw [List.foldl_cons]
      apply foldl_processStep_mem
      obtain ⟨g0, alt, path⟩ := m
      simp only [processStep]
      rw [if_pos (by simpa using hp)]
      simp
    · rw [List.foldl_cons]
      exact ih _ htl

theorem foldl_processStep_fst (ex : Str → Bool) (ms : List (Str × Str × Str))
    (acc : Str × List Str) :
    (ms.foldl (processStep ex) acc).1 =
      (ms.filter (fun m => ex (pathName (pyStrip m.2.2)))).foldl
        (fun s m => pyReplaceAll m.1
          (sd "![" ++ m.2.1 ++ sd "](images/" ++ pathName (pyStrip m.2.2) ++ sd ")") s) acc.1 := by
  induction ms generalizing acc with
  | nil => rfl
  | cons m ms ih =>
    obtain ⟨g0, alt, path⟩ := m
    simp only [List.foldl_cons, List.filter_cons]
    by_cases hp : ex (pathName (pyStrip path)) = true
    · simp only [hp, if_pos]
      rw [ih]
      simp [processStep, hp]
    · rw [if_neg (by simpa using hp)]
      rw [ih]
      simp only [processStep]
      rw [if_neg (by simpa using hp)]

/-! ## Claim theorems -/

/-- C1: for every chapter list and every index `i` below its length,
the manifest item of chapter `i` carries id `s{i:05d}` and href
`s{i:05d}-{basename}.xhtml`, the spine itemref carries the identical
idref, the TOC anchor href, the NCX content src and the archive member
name (`OPS/` plus the same string) all use the identical zero-padded
index and basename — the canonical `chapterFileName i md`. -/
theorem C1_chapter_naming_consistent (mds imgs css : List Str) (d : DescriptionData)
    (i : Nat) (md : Str) (f : Str → Str) (g : OpfDoc → Str) (c : Clock)
    (P1 : ProjectState) (jd : DescriptionData) (contents : List (Str × Str))
    (h : mds[i]? = some md) (hjd : jd.chapters.map ChapterRec.markdown = mds) :
    (get_packageOPF_XML mds imgs css d).manifest[3 + i]? =
      some { id := sd "s" ++ pad5 i, href := chapterFileName i md,
             mediaType := some (sd "application/xhtml+xml"), properties := none }
    ∧ (get_packageOPF_XML mds imgs css d).spine[i + 1]? = some (sd "s" ++ pad5 i, sd "yes")
    ∧ ((enumF 0 mds).map (fun p => tocChapterLi p.1 p.2))[i]? =
        some (sd "<li><a href=\"" ++ chapterFileName i md ++ sd "\">" ++ base md ++ sd "</a></li>")
    ∧ ((enumF 0 mds).map (fun p => ncxNavPoint p.1 p.2))[i]? =
        some (sd "<navPoint id=\"navpoint-" ++ natStr i ++ sd "\">\n<navLabel>\n<text>" ++ base md
              ++ sd "</text>\n</navLabel><content src=\"" ++ chapterFileName i md ++ sd "\"/>\n</navPoint>")
    ∧ ((buildMembers f g c P1 jd contents)[4 + i]?).map Member.name =
        some (sd "OPS/" ++ chapterFileName i md)
    ∧ manifestChapterId i = spineChapterIdref i := by
  have hlen : i < mds.length := by
    by_contra hcon
    rw [List.getElem?_eq_none (by omega)] at h
    cases h
  have hchlen : jd.chapters.length = mds.length := by
    rw [← hjd, List.length_map]
  refine ⟨?_, ?_, ?_, ?_, ?_, rfl⟩
  · simp only [get_packageOPF_XML]
    rw [List.getElem?_append_left (by simp [enumF_length]; omega)]
    rw [List.getElem?_append_left (by simp [enumF_length]; omega)]
    rw [getElem?_append_at _ _ 3 i (by simp)]
    rw [List.getElem?_map, enumF_getElem?]
    simp [h, manifestChapterId, manifestChapterHref, chapterFileName]
  · simp only [get_packageOPF_XML]
    rw [List.getElem?_cons_succ, List.getElem?_map, enumF_getElem?]
    simp [h, spineChapterIdref]
  · rw [List.getElem?_map, enumF_getElem?]
    simp [h, tocChapterLi, tocHrefStr, chapterFileName]
  · rw [List.getElem?_map, enumF_getElem?]
    simp [h, ncxNavPoint, ncxSrcStr, chapterFileName]
  · simp only [buildMembers]
    rw [List.getElem?_append_left (by simp [enumF_length, hjd]; omega)]
    rw [List.getElem?_append_left (by simp [enumF_length, hjd]; omega)]
    rw [List.getElem?_append_left (by simp [enumF_length, hjd]; omega)]
    rw [getElem?_append_at _ _ 4 i (by simp)]
    rw [List.getElem?_map, enumF_getElem?, hjd]
    simp [h, zip_name_canonical]

/-- Witness for C1 at the two-chapter list `["a.md", "b.md"]`, `i = 1`. -/
theorem C1_chapter_naming_consistent_witness :
    ([sd "a.md", sd "b.md"][1]? = some (sd "b.md")
      ∧ descC1.chapters.map ChapterRec.markdown = [sd "a.md", sd "b.md"])
    ∧ (get_packageOPF_XML [sd "a.md", sd "b.md"] [] [] descEmpty).manifest[3 + 1]? =
        some { id := sd "s" ++ pad5 1, href := chapterFileName 1 (sd "b.md"),
               mediaType := some (sd "application/xhtml+xml"), properties := none } :=
  ⟨⟨by decide, by decide⟩,
   (C1_chapter_naming_consistent [sd "a.md", sd "b.md"] [] [] descEmpty 1 (sd "b.md")
      mdToHtml0 serializeOpf0 clock1 proj0 descC1 [] (by decide) (by decide)).1⟩

/-- C2: a successful build's archive has exactly the members
`mimetype` (stored, content `application/epub+zip`, first),
`META-INF/container.xml`, `OPS/package.opf`, `OPS/titlepage.xhtml`,
one `OPS/s{idx}-{basename}.xhtml` per chapter in chapter order, one
`OPS/images/{filename}` per available image, `OPS/TOC.xhtml`,
`OPS/toc.ncx`, and one `OPS/css/{filename}` per CSS file present on
disk, in that archive order, with everything after `mimetype`
deflated. -/
theorem C2_archive_member_order (f : Str → Str) (g : OpfDoc → Str) (c : Clock)
    (P : ProjectState) (h : (mainBuild f g c P).isOk = true) :
    archivePlan (mainBuild f g c P) = some (
      [(sd "mimetype", false), (sd "META-INF/container.xml", true),
       (sd "OPS/package.opf", true), (sd "OPS/titlepage.xhtml", true)]
      ++ (enumF 0 ((mergedJson c P).chapters.map ChapterRec.markdown)).map
           (fun p => (zipChapterName p.1 p.2, true))
      ++ (get_all_filenames P.imagesDirExists (P.imageFiles.map Prod.fst) imageExts).map
           (fun img => (sd "OPS/images/" ++ img, true))
      ++ [(sd "OPS/TOC.xhtml", true), (sd "OPS/toc.ncx", true)]
      ++ ((dedupFirst [] (mergedJson c P).default_css).filter
            (fun cssf => (lookupA (cssFilesAfterInit P) cssf).isSome)).map
           (fun cssf => (sd "OPS/css/" ++ cssf, true)))
    ∧ (archiveHead (mainBuild f g c P)).map memberData
        = some (sd "mimetype", sd "application/epub+zip", false) := by
  cases hr : readChapterContents (persistState c P).workFiles (mergedJson c P).chapters with
  | error e =>
    rw [show mainBuild f g c P = .error e from by simp [mainBuild, hr]] at h
    simp [Except.isOk, Except.toBool] at h
  | ok contents =>
    have hm : mainBuild f g c P
        = .ok (buildMembers f g c (persistState c P) (mergedJson c P) contents,
               persistState c P) := by
      simp [mainBuild, hr]
    rw [hm]
    constructor
    · show some ((buildMembers f g c (persistState c P) (mergedJson c P) contents).map
          (fun m => (m.name, m.deflate))) = _
      congr 1
      simp [buildMembers, persistState, List.map_append, List.map_map, Function.comp_def]
    · show ((buildMembers f g c (persistState c P) (mergedJson c P) contents).head?).map
          memberData = _
      simp [buildMembers, memberData]

/-- Witness for C2 on the one-chapter project `proj0`. -/
theorem C2_archive_member_order_witness :
    (mainBuild mdToHtml0 serializeOpf0 clock1 proj0).isOk = true
    ∧ (archiveHead (mainBuild mdToHtml0 serializeOpf0 clock1 proj0)).map memberData
        = some (sd "mimetype", sd "application/epub+zip", false) :=
  ⟨by decide, (C2_archive_member_order mdToHtml0 serializeOpf0 clock1 proj0 (by decide)).2⟩

/-- C3 counterexample: `gift.png` is an available image (its
last-dot extension `png` passes the filter), yet its manifest item
gets media-type `image/gif` — the code tests substring containment
over the whole filename, not the extension, so the claim's
extension-based rule (`image/png` here) does not hold. -/
theorem C3_media_type_counterexample :
    get_all_filenames true [sd "gift.png"] imageExts = [sd "gift.png"]
    ∧ ((get_packageOPF_XML [] [sd "gift.png"] [] descEmpty).manifest[3]?).map OpfItem.mediaType
        = some (some (sd "image/gif"))
    ∧ extensionMediaType (sd "gift.png") = some (sd "image/png")
    ∧ (some (sd "image/gif") : Option Str) ≠ some (sd "image/png") := by decide

/-- C3 amended: the media-type attribute of the image manifest item is
chosen by substring containment over the whole filename, tested in the
order `gif`, then `jpg`/`jpeg`, then `png`, with no attribute when
nothing matches; this coincides with extension-based inference only
when no earlier token occurs elsewhere in the name. -/
theorem C3_media_type_amended (mds imgs css : List Str) (d : DescriptionData)
    (i : Nat) (f : Str) (h : imgs[i]? = some f) :
    ((get_packageOPF_XML mds imgs css d).manifest[3 + mds.length + i]?).map OpfItem.mediaType
      = some (if isSubstr (sd "gif") f then some (sd "image/gif")
              else if isSubstr (sd "jpg") f || isSubstr (sd "jpeg") f then some (sd "image/jpeg")
              else if isSubstr (sd "png") f then some (sd "image/png") else none) := by
  have hlen : i < imgs.length := by
    by_contra hc
    rw [List.getElem?_eq_none (by omega)] at h
    cases h
  simp only [get_packageOPF_XML]
  rw [List.getElem?_append_left (by simp [enumF_length]; omega)]
  rw [getElem?_append_at _ _ (3 + mds.length) i (by simp [enumF_length]; omega)]
  rw [List.getElem?_map, enumF_getElem?]
  simp [h, imageItem, imageMediaType]

/-- Witness for C3 amended at the image list `["gift.png"]`. -/
theorem C3_media_type_amended_witness :
    ([sd "gift.png"][0]? = some (sd "gift.png"))
    ∧ ((get_packageOPF_XML [] [sd "gift.png"] [] descEmpty).manifest[3 + List.length ([] : List Str) + 0]?).map
          OpfItem.mediaType
      = some (if isSubstr (sd "gif") (sd "gift.png") then some (sd "image/gif")
              else if isSubstr (sd "jpg") (sd "gift.png") || isSubstr (sd "jpeg") (sd "gift.png")
                then some (sd "image/jpeg")
              else if isSubstr (sd "png") (sd "gift.png") then some (sd "image/png") else none) :=
  ⟨by decide, C3_media_type_amended [] [sd "gift.png"] [] descEmpty 0 (sd "gift.png") (by decide)⟩

/-- C4: when the description's cover image is a filename outside the
available-image list, no manifest item of the generated package
carries `properties="cover-image"` and no `<meta name="cover">`
element appears in the metadata block. -/
theorem C4_cover_only_when_available (mds imgs css : List Str) (d : DescriptionData)
    (cov : Str) (hc : d.cover_image = some cov) (hn : cov ∉ imgs) :
    (∀ it ∈ (get_packageOPF_XML mds imgs css d).manifest,
        it.properties ≠ some (sd "cover-image"))
    ∧ (∀ ct, MetaEntry.meta (sd "cover") ct ∉ (get_packageOPF_XML mds imgs css d).metadata) := by
  constructor
  · intro it hit
    simp only [get_packageOPF_XML, List.mem_append] at hit
    rcases hit with ((hfix | hch) | himg) | hcss
    · simp only [List.mem_cons, List.not_mem_nil, or_false] at hfix
      rcases hfix with rfl | rfl | rfl
      · decide
      · decide
      · decide
    · rcases List.mem_map.mp hch with ⟨p, hp, heq⟩
      subst heq
      simp
    · rcases List.mem_map.mp himg with ⟨p, hp, heq⟩
      subst heq
      simp only [imageItem, hc]
      have hne : p.2 ≠ cov := fun he => hn (he ▸ enumF_mem hp)
      rw [if_neg (by simpa using hne)]
      simp
    · rcases List.mem_map.mp hcss with ⟨p, hp, heq⟩
      subst heq
      simp
  · intro ct hmem
    simp only [get_packageOPF_XML, List.mem_append] at hmem
    rcases hmem with hdc | hflat
    · rcases List.mem_map.mp hdc with ⟨kv, hkv, heq⟩
      cases heq
    · rcases List.mem_flatten.mp hflat with ⟨l, hl, hin⟩
      rcases List.mem_map.mp hl with ⟨p, hp, heq⟩
      subst heq
      revert hin
      simp only [coverMetaFor, hc]
      have hne : p.2 ≠ cov := fun he => hn (he ▸ enumF_mem hp)
      rw [if_neg (by simpa using hne)]
      exact List.not_mem_nil _

/-- Witness for C4 with cover `c.png` absent from images `["a.png"]`. -/
theorem C4_cover_only_when_available_witness :
    (descC4.cover_image = some (sd "c.png") ∧ sd "c.png" ∉ [sd "a.png"])
    ∧ MetaEntry.meta (sd "cover") (sd "image-00000")
        ∉ (get_packageOPF_XML [] [sd "a.png"] [] descC4).metadata :=
  ⟨⟨rfl, by decide⟩,
   (C4_cover_only_when_available [] [sd "a.png"] [] descC4 (sd "c.png") rfl (by decide)).2
     (sd "image-00000")⟩

/-- C5 counterexample: the preprocessing strips the input before
splitting, so on input `"a\n"` it produces `"a"`, while the claim's
split-then-rejoin of the raw input produces `"a\n\n"`. -/
theorem C5_line_doubling_counterexample :
    corrected_markdown (sd "a\n") = sd "a"
    ∧ claimLineDoubling (sd "a\n") = sd "a\n\n"
    ∧ corrected_markdown (sd "a\n") ≠ claimLineDoubling (sd "a\n") := by decide

/-- C5 amended: the preprocessing equals the claim's line-doubling
transform applied to the whitespace-stripped input, and the chapter
pipeline applies it before image rewriting and before the HTML
conversion. -/
theorem C5_line_doubling_amended (f : Str → Str) (ex : Str → Bool) (md : Str)
    (css : List Str) (content : Str) :
    corrected_markdown content = claimLineDoubling (pyStrip content)
    ∧ get_chapter_XML f ex md css content =
        (chapterShell (base md) css
           (f ((process_markdown_for_images ex (corrected_markdown content)).1)),
         (process_markdown_for_images ex (corrected_markdown content)).2) :=
  ⟨rfl, rfl⟩

/-- C6 counterexample: on `textC6` the second reference's filename
`p.png` is present and the first reference's filename `z![a](p.png` is
not, yet the global text replacement of the present match's text also
rewrites its occurrence inside the first (absent) reference, so the
first reference is not left unchanged as the claim demands. -/
theorem C6_image_rewrite_counterexample :
    findMatches textC6 = [(sd "![b](z![a](p.png)", sd "b", sd "z![a](p.png"),
                          (sd "![a](p.png)", sd "a", sd "p.png")]
    ∧ oracleP (pathName (pyStrip (sd "z![a](p.png"))) = false
    ∧ oracleP (pathName (pyStrip (sd "p.png"))) = true
    ∧ process_markdown_for_images oracleP textC6 ≠ claimProcessImages oracleP textC6
    ∧ (process_markdown_for_images oracleP textC6).1
        = sd "![b](z![a](images/p.png) ![a](images/p.png)"
    ∧ (claimProcessImages oracleP textC6).1
        = sd "![b](z![a](p.png) ![a](images/p.png)" := by decide

/-- C6 amended: texts with no regex match are returned unchanged with
an empty reference list; the documented example rewrites
`![x](sub/dir/pic.png)` to `![x](images/pic.png)` recording `pic.png`;
every matched reference whose stripped path's filename component names
a present file has that filename recorded in the returned list; and the
returned text is obtained by replacing, for each such present match in
match order, every occurrence of its matched text with its
`![alt](images/<filename>)` form — so text inside other references may
be altered too. -/
theorem C6_image_rewrite_amended :
    (∀ (ex : Str → Bool) (t : Str), findMatches t = [] →
        process_markdown_for_images ex t = (t, []))
    ∧ process_markdown_for_images oraclePic (sd "![x](sub/dir/pic.png)")
        = (sd "![x](images/pic.png)", [sd "pic.png"])
    ∧ (∀ (ex : Str → Bool) (t g0 alt path : Str), (g0, alt, path) ∈ findMatches t →
        ex (pathName (pyStrip path)) = true →
        pathName (pyStrip path) ∈ (process_markdown_for_images ex t).2)
    ∧ (∀ (ex : Str → Bool) (t : Str), (process_markdown_for_images ex t).1 =
        ((findMatches t).filter (fun m => ex (pathName (pyStrip m.2.2)))).foldl
          (fun s m => pyReplaceAll m.1
            (sd "![" ++ m.2.1 ++ sd "](images/" ++ pathName (pyStrip m.2.2) ++ sd ")") s) t) := by
  refine ⟨?_, by decide, ?_, ?_⟩
  · intro ex t hempty
    unfold process_markdown_for_images
    rw [hempty]
    rfl
  · intro ex t g0 alt path hm hp
    exact foldl_processStep_rec ex _ _ hm hp
  · intro ex t
    exact foldl_processStep_fst ex _ _

/-- Witness for C6 amended on a text with no image syntax. -/
theorem C6_image_rewrite_amended_witness :
    process_markdown_for_images oracleNone (sd "plain text") = (sd "plain text", []) :=
  C6_image_rewrite_amended.1 oracleNone (sd "plain text") (by decide)

/-- C7 counterexample: two sequential builds of `proj0` at different
clock instants are not identical-except-for-the-identifier — the
`mimetype` member already differs (its ZIP timestamp comes from the
build clock) — while the identifier itself, generated from the first
clock and persisted, is the same string in both builds. -/
theorem C7_round_trip_counterexample :
    claimC7At mdToHtml0 serializeOpf0 clock1 clock2 proj0 = false
    ∧ lookupD (mergedJson clock1 proj0).metadata (sd "dc:identifier") []
        = sd "id-" ++ clock1.stamp
    ∧ lookupD (mergedJson clock2 (persistState clock1 proj0)).metadata (sd "dc:identifier") []
        = sd "id-" ++ clock1.stamp := by decide

/-- C7 amended: building a second time from the directory state the
first build leaves behind yields an archive identical in member names,
contents, order and compression — the merged description, including
any clock-derived identifier, is persisted by the first run and reused
— so the two archives differ at most in the per-member ZIP
modification timestamps taken from the build clock. -/
theorem C7_round_trip_amended (f : Str → Str) (g : OpfDoc → Str) (c1 c2 : Clock)
    (P : ProjectState) :
    archiveData (mainBuild f g c1 P) = rebuildData f g c1 c2 P := by
  unfold rebuildData
  cases hr : readChapterContents (persistState c1 P).workFiles (mergedJson c1 P).chapters with
  | error e =>
    rw [show mainBuild f g c1 P = .error e from by simp [mainBuild, hr]]
    rfl
  | ok contents =>
    have hm1 : mainBuild f g c1 P
        = .ok (buildMembers f g c1 (persistState c1 P) (mergedJson c1 P) contents,
               persistState c1 P) := by
      simp [mainBuild, hr]
    have hm2 : mainBuild f g c2 (persistState c1 P)
        = .ok (buildMembers f g c2 (persistState c1 P) (mergedJson c1 P) contents,
               persistState c1 P) := by
      simp only [mainBuild]
      rw [mergedJson_idem, persistState_idem, hr]
    rw [hm1]
    simp only [archiveData, Except.map]
    rw [hm2]
    simp only [Except.map]
    rw [buildMembers_data f g c1 c2]

/-- C8: the generated package element carries
`unique-identifier="pub-id"` while the `dc:identifier` metadata
element is tagged `id="book-id"`; the two never match, so the
unique-identifier attribute does not cross-reference the identifier
element — the claim (and the EPUB requirement behind it) names the
intent, and the code's constant `pub-id` is the slip. -/
theorem C8_unique_identifier_dangling :
    (get_packageOPF_XML [] [] [] descC8).uniqueIdentifier = sd "pub-id"
    ∧ MetaEntry.dc (sd "dc:identifier") (some (sd "book-id")) (sd "some-id")
        ∈ (get_packageOPF_XML [] [] [] descC8).metadata
    ∧ sd "pub-id" ≠ sd "book-id" := by decide

/-- C9: when the project directory is missing or holds no `*.md` file,
`convert_to_epub` fails; in the model a failed build produces no
archive at all, so no partial archive can be left behind for these two
fatal cases. -/
theorem C9_fail_fast_before_archive (f : Str → Str) (g : OpfDoc → Str) (c : Clock)
    (dirExists : Bool) (P : ProjectState)
    (h : dirExists = false ∨ mdNamesOf P = []) :
    (convert_to_epub f g c dirExists P).isOk = false := by
  rcases h with h | h
  · subst h; rfl
  · cases dirExists
    · rfl
    · simp [convert_to_epub, h, Except.isOk, Except.toBool]

/-- Witness for C9 with a missing project directory. -/
theorem C9_fail_fast_before_archive_witness :
    (convert_to_epub mdToHtml0 serializeOpf0 clock1 false proj0).isOk = false :=
  C9_fail_fast_before_archive mdToHtml0 serializeOpf0 clock1 false proj0 (Or.inl rfl)

/-- C10: the available-image listing keeps exactly the filenames whose
substring after the last dot (the whole name when no dot occurs) is,
case-sensitively, one of the extension strings; hence `cover.PNG` is
excluded while a dotless file named `png` is included. -/
theorem C10_extension_filter_exact :
    (∀ (files exts : List Str) (x : Str),
        x ∈ get_all_filenames true files exts ↔ x ∈ files ∧ lastDotChunk x ∈ exts)
    ∧ get_all_filenames true [sd "cover.PNG"] imageExts = []
    ∧ get_all_filenames true [sd "png"] imageExts = [sd "png"] := by
  refine ⟨fun files exts x => ?_, by decide, by decide⟩
  simp [get_all_filenames, List.mem_filter]

end Pdf2Epub
